import Mathlib

/-!
Verification development for `cdw_file_to_table_load_utility_v1.py`.

The module loads one tabular file from an object store into an Oracle staging
table.  We embed, faithfully to the Python source:

* the INSERT-statement synthesis loop of `load_csv_data_into_table`
  (lines 182–193): the value-slot list driven by the source row width and the
  `dateColumnConversion` mappings, and the final query string;
* the column resolution of `retrieve_staging_table_column_names`
  (lines 101–131): the `.values.squeeze().tolist()` conversion, the
  strip-and-exclude comprehension and the whitespace-quoting loop;
* the NaN normalisation loop of the orchestrator (lines 261–269);
* the connection/cursor scoping of `delete_existing_data_before_load`
  (lines 48–64) together with `connect_to_oracledb` (lines 31–46), tracking
  which local variables are bound when the `finally` block runs;
* the orchestrator `read_from_s3_and_write_to_oracle` (lines 209–281) as a
  step trace: which pipeline steps run and which Python exception, if any,
  aborts the run.

Machine floats only ever meet `isinstance(value, float)` / `math.isnan`, so a
scalar's float payload is modelled as either the NaN value or a rational.
-/

/-- Python exceptions that the utility can raise or propagate. -/
inductive PyExn where
  | nameError
  | attributeError
  | typeError
  | dbError
  deriving DecidableEq

/-- The pipeline steps of the orchestrator (lines 273–281), in source order. -/
inductive Step where
  | truncate
  | preCount
  | resolveColumns
  | synthesize
  | bulkInsert
  | postCount
  deriving DecidableEq

/-- One entry of the `dateColumnConversion` argument: a dict with keys
`dateColumnIndex` and `dateColumnConversionFormat` (lines 185–188). -/
structure DateConv where
  dateColumnIndex : Int
  dateColumnConversionFormat : String
  deriving DecidableEq

/-- Line 190: the bare positional placeholder `:x+1`. -/
def bareSlot (x : Nat) : String := ":" ++ toString (x + 1)

/-- Line 188: the date-wrapped placeholder
`TO_DATE(:x+1, 'format')`. -/
def toDateSlot (x : Nat) (fmt : String) : String :=
  "TO_DATE(:" ++ toString (x + 1) ++ ", \x27" ++ fmt ++ "\x27)"

/-- Lines 185–188, one iteration of the inner `for dateColConversionDict in
dateColumnConversion` loop: on an index match, append the `TO_DATE` slot and
set the `dateColumnIndexExists` flag. -/
def innerAppend (x : Nat) (acc : List String × Bool) (d : DateConv) :
    List String × Bool :=
  if (x : Int) = d.dateColumnIndex then
    (acc.1 ++ [toDateSlot x d.dateColumnConversionFormat], true)
  else acc

/-- Lines 184–188: the whole inner loop for position `x`, starting from an
empty slot list and a cleared flag. -/
def innerLoop (x : Nat) (conv : List DateConv) : List String × Bool :=
  conv.foldl (innerAppend x) ([], false)

/-- Lines 184–190, one iteration of the outer `for x in range(0,
len(dataDF_columns))` loop: run the inner loop, then append the bare
placeholder when no mapping index matched. -/
def outerStep (conv : List DateConv) (acc : List String) (x : Nat) :
    List String :=
  if (innerLoop x conv).2 then acc ++ (innerLoop x conv).1
  else acc ++ (innerLoop x conv).1 ++ [bareSlot x]

/-- Lines 182–190: the `valuesToInsert` list before the `', '.join` on
line 191, for a source row width `rowWidth = len(dataDF_columns)`. -/
def valuesToInsert (rowWidth : Nat) (conv : List DateConv) : List String :=
  (List.range rowWidth).foldl (outerStep conv) []

/-- The `TO_DATE` slots that the inner loop emits for position `x`, in
mapping order. -/
def matchedSlots (conv : List DateConv) (x : Nat) : List String :=
  (conv.filter (fun d => decide ((x : Int) = d.dateColumnIndex))).map
    (fun d => toDateSlot x d.dateColumnConversionFormat)

/-- All slots emitted for position `x`: the matched `TO_DATE` slots, or the
single bare placeholder when no mapping matches. -/
def posSlots (conv : List DateConv) (x : Nat) : List String :=
  if (matchedSlots conv x).isEmpty then [bareSlot x] else matchedSlots conv x

/-- The unique slot of position `x` when mapping indices are distinct. -/
def slotAt (conv : List DateConv) (x : Nat) : String :=
  match conv.find? (fun d => decide ((x : Int) = d.dateColumnIndex)) with
  | some d => toDateSlot x d.dateColumnConversionFormat
  | none => bareSlot x

/-- Line 193: `', '.join(staging_table_columns[x] for x in range(0,
len(staging_table_columns)))`. -/
def joinCols (cols : List String) : String :=
  String.intercalate ", " ((List.range cols.length).map (fun x => cols.getD x ""))

/-- Line 193: the synthesized `data_insertion_query` string. -/
def data_insertion_query (staging_tablename : String)
    (staging_table_columns : List String) (rowWidth : Nat)
    (conv : List DateConv) : String :=
  "INSERT INTO " ++ staging_tablename ++ "(" ++ joinCols staging_table_columns
    ++ ") VALUES(" ++ String.intercalate ", " (valuesToInsert rowWidth conv) ++ ")"

/-- A date mapping entry is in range for a given row width
(the invariant stated by the design's data model). -/
def inRange (rowWidth : Nat) (d : DateConv) : Bool :=
  decide (0 ≤ d.dateColumnIndex ∧ d.dateColumnIndex < (rowWidth : Int))

/-- A Python float as the utility observes it: the NaN value or a number
(modelled as a rational, the only operations used are `isinstance` and
`math.isnan`). -/
inductive PyFloat where
  | nan
  | val (q : Rat)
  deriving DecidableEq

/-- A scalar cell of one source row. -/
inductive Scalar where
  | float (f : PyFloat)
  | int (n : Int)
  | str (s : String)
  | none
  deriving DecidableEq

/-- Lines 265–267 as a per-value function: a value that is a float and NaN
becomes `None`, anything else is kept. -/
def normValue (v : Scalar) : Scalar :=
  if v = Scalar.float PyFloat.nan then Scalar.none else v

/-- Lines 264–267, one iteration of `for idx, value in
enumerate(list(dataList))`: set index `idx` of the working list to `None`
when its value is a float NaN. -/
def normLoopStep (acc : List Scalar) (iv : Nat × Scalar) : List Scalar :=
  if iv.2 = Scalar.float PyFloat.nan then acc.set iv.1 Scalar.none else acc

/-- Lines 263–268: copy the tuple into a list, run the index loop over a
snapshot of that list, and retuple. -/
def modified_dataTuple (dataTuple : List Scalar) : List Scalar :=
  (List.enum dataTuple).foldl normLoopStep dataTuple

/-- Lines 261–269: the loop building `modified_dataInsertionTuples`. -/
def modified_dataInsertionTuples (rows : List (List Scalar)) :
    List (List Scalar) :=
  rows.map modified_dataTuple

/-- The Python whitespace class seen by `str.strip()` and the regex `\s`
on the ASCII range. -/
def pyIsSpace (c : Char) : Bool :=
  c == ' ' || c == '\t' || c == '\n' || c == '\r' || c == '\x0b' || c == '\x0c'

/-- Python `str.strip()`: drop leading and trailing whitespace. -/
def pyStrip (s : String) : String :=
  String.mk (((s.data.dropWhile pyIsSpace).reverse.dropWhile pyIsSpace).reverse)

/-- Line 128: `re.search(r'\s', col) is not None`. -/
def containsSpace (s : String) : Bool := s.data.any pyIsSpace

/-- Line 116: strip each name and keep it only when its stripped form is
not in `stagingTableOptionalColumns`. -/
def stagingTableColumnsModifiedv1 (stagingTableColumns : List String)
    (stagingTableOptionalColumns : List String) : List String :=
  (stagingTableColumns.map pyStrip).filter
    (fun c => !(stagingTableOptionalColumns.contains c))

/-- Lines 127–131, one iteration of the quoting loop. -/
def quoteStep (acc : List String) (c : String) : List String :=
  if containsSpace c then acc ++ ["\"" ++ c ++ "\""] else acc ++ [c]

/-- Lines 126–131: wrap every name containing whitespace in double
quotes. -/
def stagingTableColumnsModifiedv2 (cols : List String) : List String :=
  cols.foldl quoteStep []

/-- Quote-if-whitespace as a per-name function. -/
def quoteIfWs (c : String) : String :=
  if containsSpace c then "\"" ++ c ++ "\"" else c

/-- Lines 116–131 together: the processing applied to the materialised
`stagingTableColumns` value. -/
def processColumns (stagingTableColumns : List String)
    (stagingTableOptionalColumns : List String) : List String :=
  stagingTableColumnsModifiedv2
    (stagingTableColumnsModifiedv1 stagingTableColumns
      stagingTableOptionalColumns)

/-- The result of `stagingTableColumnsDF.values.squeeze().tolist()`
(line 106): numpy squeezes a 1×1 frame to a 0-dimensional array, whose
`tolist()` is the bare Python string; otherwise a list of strings. -/
inductive PyObj where
  | pyStr (s : String)
  | pyList (l : List String)
  deriving DecidableEq

/-- `squeeze().tolist()` on the fetched single-column records. -/
def squeeze_tolist (records : List String) : PyObj :=
  match records with
  | [s] => PyObj.pyStr s
  | l => PyObj.pyList l

/-- Python iteration over the squeezed value: iterating a `str` yields its
characters as one-character strings; iterating a list yields its
elements. -/
def pyIterate (o : PyObj) : List String :=
  match o with
  | PyObj.pyStr s => s.data.map (fun c => String.mk [c])
  | PyObj.pyList l => l

/-- Lines 101–131: column resolution from the fetched catalog records. -/
def retrieve_staging_table_column_names (records : List String)
    (stagingTableOptionalColumns : List String) : List String :=
  processColumns (pyIterate (squeeze_tolist records))
    stagingTableOptionalColumns

/-- The local variables of one scoped database call. The outer `Option` is
bindedness (`Option.none` = the local was never assigned), the inner one is
the Python value (`Option.none` = the variable holds `None`). -/
structure PyState where
  connection : Option (Option Unit) := Option.none
  cursor : Option (Option Unit) := Option.none
  cursorClosed : Bool := false
  connectionClosed : Bool := false
  deriving DecidableEq

/-- Lines 31–46: `connect_to_oracledb` catches every exception itself and
returns `None` on failure, the live connection otherwise. -/
def connect_to_oracledb (connectOk : Bool) : Option Unit :=
  if connectOk then Option.some () else Option.none

/-- The try-block body shared by the scoped database calls: bind
`connection`; bind `cursor` via `connection.cursor()`, which raises an
`AttributeError` when `connection` is `None` (leaving `cursor` unbound);
then execute the statement. -/
def runScopedBody (connectOk execOk : Bool) : PyState × Option PyExn :=
  let st1 : PyState := { connection := Option.some (connect_to_oracledb connectOk) }
  match st1.connection with
  | Option.some (Option.some _) =>
      let st2 : PyState := { st1 with cursor := Option.some (Option.some ()) }
      if execOk then (st2, Option.none) else (st2, Option.some PyExn.dbError)
  | Option.some Option.none => (st1, Option.some PyExn.attributeError)
  | Option.none => (st1, Option.some PyExn.nameError)

/-- Lines 60–64 (and the identical blocks at 79–83, 140–144, 202–206): the
`finally` block. `if cursor:` raises a `NameError` (UnboundLocalError) when
`cursor` was never bound; a variable bound to `None` is falsy and its
`close()` is skipped. -/
def runFinally (st : PyState) : PyState × Option PyExn :=
  match st.cursor with
  | Option.none => (st, Option.some PyExn.nameError)
  | Option.some c =>
      let st1 := if c.isSome then { st with cursorClosed := true } else st
      match st1.connection with
      | Option.none => (st1, Option.some PyExn.nameError)
      | Option.some conn =>
          (if conn.isSome then { st1 with connectionClosed := true } else st1,
            Option.none)

/-- A scoped call whose `try` has a catch-all `except`: the body's exception
is swallowed (printed), while an exception raised by the `finally` block
itself propagates. -/
def scopedCaughtCall (connectOk execOk : Bool) : PyState × Option PyExn :=
  runFinally (runScopedBody connectOk execOk).1

/-- Lines 48–64: truncate the staging table before the load. -/
def delete_existing_data_before_load (connectOk execOk : Bool) :
    PyState × Option PyExn :=
  scopedCaughtCall connectOk execOk

/-- Lines 66–83: the advisory count query. -/
def validate_by_count_query (connectOk execOk : Bool) :
    PyState × Option PyExn :=
  scopedCaughtCall connectOk execOk

/-- Lines 85–144 as the orchestrator observes them: any body exception is
caught by the catch-all `except` (printed) and the function falls through
to return `None`; with a live connection and a successful catalog query the
processed column list is returned. With no connection, `cursor` is unbound
and the `finally` raises a `NameError`. -/
def retrieve_run (connectOk : Bool) (catalogRows : Except Unit (List String))
    (stagingTableOptionalColumns : List String) :
    Option (List String) × Option PyExn :=
  if connectOk then
    match catalogRows with
    | Except.error _ => (Option.none, Option.none)
    | Except.ok records =>
        (Option.some
            (retrieve_staging_table_column_names records
              stagingTableOptionalColumns),
          Option.none)
  else (Option.none, Option.some PyExn.nameError)

/-- Lines 146–206: `load_csv_data_into_table`. There is no `except` clause:
the `TypeError` raised by `len(None)` while synthesising the statement, and
any driver error from `executemany`, propagate after the `finally` has
closed the scoped resources. Returns the steps this call attempted and the
synthesized query on success. -/
def load_csv_data_into_table (connectOk : Bool) (staging_tablename : String)
    (staging_table_columns : Option (List String)) (rowWidth : Nat)
    (conv : List DateConv) (insertOk : Bool) :
    List Step × Except PyExn String :=
  if connectOk then
    match staging_table_columns with
    | Option.none => ([Step.synthesize], Except.error PyExn.typeError)
    | Option.some cols =>
        if insertOk then
          ([Step.synthesize, Step.bulkInsert],
            Except.ok (data_insertion_query staging_tablename cols rowWidth conv))
        else ([Step.synthesize, Step.bulkInsert], Except.error PyExn.dbError)
  else ([], Except.error PyExn.nameError)

/-- The database outcomes one load can observe. -/
structure LoadEnv where
  connectOk : Bool
  truncateOk : Bool
  preCountOk : Bool
  postCountOk : Bool
  catalogRows : Except Unit (List String)
  insertOk : Bool

/-- Lines 273–281: the per-file pipeline the orchestrator runs for one
matched object, as the trace of attempted steps plus the propagated
exception, if any. -/
def run_pipeline (env : LoadEnv) (staging_tablename : String)
    (stagingTableOptionalColumns : List String) (rowWidth : Nat)
    (conv : List DateConv) : List Step × Option PyExn :=
  match (delete_existing_data_before_load env.connectOk env.truncateOk).2 with
  | Option.some e => ([Step.truncate], Option.some e)
  | Option.none =>
  match (validate_by_count_query env.connectOk env.preCountOk).2 with
  | Option.some e => ([Step.truncate, Step.preCount], Option.some e)
  | Option.none =>
  let res := retrieve_run env.connectOk env.catalogRows stagingTableOptionalColumns
  match res.2 with
  | Option.some e =>
      ([Step.truncate, Step.preCount, Step.resolveColumns], Option.some e)
  | Option.none =>
  let load := load_csv_data_into_table env.connectOk staging_tablename res.1
    rowWidth conv env.insertOk
  match load.2 with
  | Except.error e =>
      ([Step.truncate, Step.preCount, Step.resolveColumns] ++ load.1,
        Option.some e)
  | Except.ok _ =>
  match (validate_by_count_query env.connectOk env.postCountOk).2 with
  | Option.some e =>
      ([Step.truncate, Step.preCount, Step.resolveColumns] ++ load.1
          ++ [Step.postCount], Option.some e)
  | Option.none =>
      ([Step.truncate, Step.preCount, Step.resolveColumns] ++ load.1
          ++ [Step.postCount], Option.none)

/-- Python `str.endswith`. -/
def pyEndsWith (s suf : String) : Bool := suf.data.isSuffixOf s.data

/-- Line 225: the match condition for one listed object key. -/
def objMatches (source_filepath obj_name : String) : Bool :=
  (pyEndsWith obj_name ".csv" || pyEndsWith obj_name ".xlsx")
    && obj_name == source_filepath

/-- Lines 218–281: the `for obj in objects_list` loop. A matched object runs
the pipeline; a propagated exception aborts the loop. Unmatched objects run
no pipeline step. Each listed object carries its key and the row width its
parsed rows would have. -/
def s3Loop (env : LoadEnv) (source_filepath staging_tablename : String)
    (stagingTableOptionalColumns : List String) (conv : List DateConv) :
    List (String × Nat) → List Step × Option PyExn
  | [] => ([], Option.none)
  | (obj_name, rowWidth) :: rest =>
      if objMatches source_filepath obj_name then
        let r := run_pipeline env staging_tablename stagingTableOptionalColumns
          rowWidth conv
        match r.2 with
        | Option.some e => (r.1, Option.some e)
        | Option.none =>
            let rr := s3Loop env source_filepath staging_tablename
              stagingTableOptionalColumns conv rest
            (r.1 ++ rr.1, rr.2)
      else
        s3Loop env source_filepath staging_tablename stagingTableOptionalColumns
          conv rest

/-- Lines 209–281: `read_from_s3_and_write_to_oracle`. `objects_list` is
`None` exactly when the prefix listing had no `Contents` key, and iterating
`None` raises a `TypeError`. -/
def read_from_s3_and_write_to_oracle (source_filepath staging_tablename : String)
    (stagingTableOptionalColumns : List String) (conv : List DateConv)
    (objects_list : Option (List (String × Nat))) (env : LoadEnv) :
    List Step × Option PyExn :=
  match objects_list with
  | Option.none => ([], Option.some PyExn.typeError)
  | Option.some objs =>
      s3Loop env source_filepath staging_tablename stagingTableOptionalColumns
        conv objs

theorem innerLoop_foldl (x : Nat) (conv : List DateConv) :
    ∀ acc : List String × Bool,
      conv.foldl (innerAppend x) acc =
        (acc.1 ++ matchedSlots conv x,
          (acc.2 || conv.any (fun d => decide ((x : Int) = d.dateColumnIndex)))) := by
  induction conv with
  | nil => intro acc; simp [matchedSlots]
  | cons d rest ih =>
      intro acc
      by_cases h : (x : Int) = d.dateColumnIndex
      · simp only [List.foldl_cons, innerAppend, if_pos h, ih, matchedSlots,
          List.filter_cons, List.any_cons, h, decide_True, List.map_cons]
        simp [matchedSlots]
      · simp only [List.foldl_cons, innerAppend, if_neg h, ih, matchedSlots,
          List.filter_cons, List.any_cons, h, decide_False, List.map_cons]
        simp [matchedSlots, h]

theorem innerLoop_eq (x : Nat) (conv : List DateConv) :
    innerLoop x conv =
      (matchedSlots conv x,
        conv.any (fun d => decide ((x : Int) = d.dateColumnIndex))) := by
  simpa [innerLoop] using innerLoop_foldl x conv ([], false)

theorem matchedSlots_isEmpty_iff (conv : List DateConv) (x : Nat) :
    (matchedSlots conv x).isEmpty = true ↔
      conv.any (fun d => decide ((x : Int) = d.dateColumnIndex)) = false := by
  constructor
  · intro h
    rw [List.isEmpty_iff] at h
    have h2 : conv.filter (fun d => decide ((x : Int) = d.dateColumnIndex)) = [] := by
      by_contra hne
      obtain ⟨d, hd⟩ := List.exists_mem_of_ne_nil _ hne
      have : (fun d => toDateSlot x d.dateColumnConversionFormat) d ∈
          matchedSlots conv x := List.mem_map_of_mem _ hd
      simp [h] at this
    rw [List.any_eq_false]
    intro d hd
    intro hdx
    have : d ∈ conv.filter (fun d => decide ((x : Int) = d.dateColumnIndex)) :=
      List.mem_filter.mpr ⟨hd, hdx⟩
    simp [h2] at this
  · intro h
    rw [List.any_eq_false] at h
    have h2 : conv.filter (fun d => decide ((x : Int) = d.dateColumnIndex)) = [] :=
      List.filter_eq_nil_iff.mpr h
    simp [matchedSlots, h2]

theorem outerStep_eq (conv : List DateConv) (acc : List String) (x : Nat) :
    outerStep conv acc x = acc ++ posSlots conv x := by
  by_cases h : (matchedSlots conv x).isEmpty = true
  · have hflag := (matchedSlots_isEmpty_iff conv x).mp h
    have hm : matchedSlots conv x = [] := List.isEmpty_iff.mp h
    simp [outerStep, innerLoop_eq, hflag, posSlots, h, hm]
  · have hflag : conv.any (fun d => decide ((x : Int) = d.dateColumnIndex)) = true := by
      cases hc : conv.any (fun d => decide ((x : Int) = d.dateColumnIndex)) with
      | false => exact absurd ((matchedSlots_isEmpty_iff conv x).mpr hc) h
      | true => rfl
    simp [outerStep, innerLoop_eq, hflag, posSlots, h]

theorem valuesToInsert_foldl (conv : List DateConv) :
    ∀ (l : List Nat) (acc : List String),
      l.foldl (outerStep conv) acc = acc ++ l.flatMap (posSlots conv) := by
  intro l
  induction l with
  | nil => intro acc; simp
  | cons x rest ih =>
      intro acc
      simp [List.foldl_cons, outerStep_eq, ih, List.flatMap_cons, List.append_assoc]

theorem valuesToInsert_eq_flatMap (rowWidth : Nat) (conv : List DateConv) :
    valuesToInsert rowWidth conv = (List.range rowWidth).flatMap (posSlots conv) := by
  simpa [valuesToInsert] using valuesToInsert_foldl conv (List.range rowWidth) []

theorem flatMap_singleton_eq_map {α β : Type} (g : α → β) (l : List α) :
    l.flatMap (fun x => [g x]) = l.map g := by
  induction l with
  | nil => rfl
  | cons x rest ih => simp [List.flatMap_cons, ih]

theorem flatMap_congr_of_mem {α β : Type} {l : List α} {f g : α → List β}
    (h : ∀ x ∈ l, f x = g x) : l.flatMap f = l.flatMap g := by
  induction l with
  | nil => rfl
  | cons x rest ih =>
      rw [List.flatMap_cons, List.flatMap_cons,
        h x (List.mem_cons_self x rest),
        ih (fun y hy => h y (List.mem_cons_of_mem x hy))]

theorem length_flatMap_eq {α β : Type} (l : List α) (f : α → List β) :
    (l.flatMap f).length = (l.map (fun x => (f x).length)).sum := by
  induction l with
  | nil => rfl
  | cons x rest ih => simp [List.flatMap_cons, ih]

theorem posSlots_of_nodup (conv : List DateConv)
    (hnd : (conv.map DateConv.dateColumnIndex).Nodup) (x : Nat) :
    posSlots conv x = [slotAt conv x] := by
  induction conv with
  | nil => simp [posSlots, matchedSlots, slotAt]
  | cons d rest ih =>
      rw [List.map_cons, List.nodup_cons] at hnd
      obtain ⟨hnotmem, hrest⟩ := hnd
      by_cases h : (x : Int) = d.dateColumnIndex
      · have hrestfil :
            rest.filter (fun e => decide ((x : Int) = e.dateColumnIndex)) = [] := by
          apply List.filter_eq_nil_iff.mpr
          intro e he hex
          rw [decide_eq_true_eq] at hex
          apply hnotmem
          have hde : e.dateColumnIndex = d.dateColumnIndex := by rw [← hex, ← h]
          rw [← hde]
          exact List.mem_map_of_mem _ he
        have hpd : decide ((x : Int) = d.dateColumnIndex) = true := by simp [h]
        have hmatched : matchedSlots (d :: rest) x =
            [toDateSlot x d.dateColumnConversionFormat] := by
          simp only [matchedSlots, List.filter_cons, hpd]
          simp [hrestfil]
        have hfind : (d :: rest).find?
            (fun e => decide ((x : Int) = e.dateColumnIndex)) = some d :=
          List.find?_cons_of_pos _ (by simp [h])
        simp [posSlots, hmatched, slotAt, hfind]
      · have hmatched : matchedSlots (d :: rest) x = matchedSlots rest x := by
          simp [matchedSlots, List.filter_cons, h]
        have hfind : (d :: rest).find?
            (fun e => decide ((x : Int) = e.dateColumnIndex)) =
            rest.find? (fun e => decide ((x : Int) = e.dateColumnIndex)) :=
          List.find?_cons_of_neg _ (by simp [h])
        have hpos : posSlots (d :: rest) x = posSlots rest x := by
          simp [posSlots, hmatched]
        have hslot : slotAt (d :: rest) x = slotAt rest x := by
          simp [slotAt, hfind]
        rw [hpos, hslot]
        exact ih hrest

theorem valuesToInsert_of_nodup (rowWidth : Nat) (conv : List DateConv)
    (hnd : (conv.map DateConv.dateColumnIndex).Nodup) :
    valuesToInsert rowWidth conv = (List.range rowWidth).map (slotAt conv) := by
  rw [valuesToInsert_eq_flatMap]
  have h : posSlots conv = fun x => [slotAt conv x] :=
    funext (posSlots_of_nodup conv hnd)
  rw [h, flatMap_singleton_eq_map]

theorem map_getD_range (cols : List String) :
    (List.range cols.length).map (fun x => cols.getD x "") = cols := by
  apply List.ext_getElem
  · simp
  · intro i h1 h2
    simp [List.getElem_map, List.getElem_range, List.getD_eq_getElem?_getD,
      List.getElem?_eq_getElem h2]

theorem joinCols_eq (cols : List String) :
    joinCols cols = String.intercalate ", " cols := by
  rw [joinCols, map_getD_range]

theorem find?_eq_some_of_nodup (conv : List DateConv)
    (hnd : (conv.map DateConv.dateColumnIndex).Nodup) (d : DateConv)
    (hd : d ∈ conv) (x : Nat) (hx : d.dateColumnIndex = (x : Int)) :
    conv.find? (fun e => decide ((x : Int) = e.dateColumnIndex)) = some d := by
  induction conv with
  | nil => cases hd
  | cons e rest ih =>
      rw [List.map_cons, List.nodup_cons] at hnd
      obtain ⟨hnotmem, hrest⟩ := hnd
      by_cases h : (x : Int) = e.dateColumnIndex
      · have hde : d = e := by
          rcases List.mem_cons.mp hd with h1 | h1
          · exact h1
          · exfalso
            apply hnotmem
            rw [← h, ← hx]
            exact List.mem_map_of_mem _ h1
        rw [List.find?_cons_of_pos _ (by simp [h]), hde]
      · rcases List.mem_cons.mp hd with h1 | h1
        · exact absurd (by rw [h1] at hx; exact hx.symm) h
        · rw [List.find?_cons_of_neg _ (by simp [h])]
          exact ih hrest h1

theorem length_posSlots (conv : List DateConv) (x : Nat) :
    (posSlots conv x).length =
      if conv.countP (fun d => decide ((x : Int) = d.dateColumnIndex)) = 0 then 1
      else conv.countP (fun d => decide ((x : Int) = d.dateColumnIndex)) := by
  have hm : (matchedSlots conv x).length =
      conv.countP (fun d => decide ((x : Int) = d.dateColumnIndex)) := by
    simp [matchedSlots, List.countP_eq_length_filter]
  by_cases hemp : (matchedSlots conv x).isEmpty = true
  · have h0 : matchedSlots conv x = [] := List.isEmpty_iff.mp hemp
    have hc : conv.countP (fun d => decide ((x : Int) = d.dateColumnIndex)) = 0 := by
      rw [← hm, h0]; rfl
    simp [posSlots, hemp, hc]
  · have hc : conv.countP (fun d => decide ((x : Int) = d.dateColumnIndex)) ≠ 0 := by
      intro hcon
      apply hemp
      rw [List.isEmpty_iff, ← List.length_eq_zero, hm]
      exact hcon
    have hne : (matchedSlots conv x).isEmpty = false := by
      cases hval : (matchedSlots conv x).isEmpty with
      | false => rfl
      | true => exact absurd hval hemp
    simp only [posSlots, hne, Bool.false_eq_true, if_false]
    rw [hm, if_neg hc]

theorem one_le_length_posSlots (conv : List DateConv) (x : Nat) :
    1 ≤ (posSlots conv x).length := by
  rw [length_posSlots]
  by_cases h : conv.countP (fun d => decide ((x : Int) = d.dateColumnIndex)) = 0
  · simp [h]
  · rw [if_neg h]; omega

theorem length_le_sum_of_one_le :
    ∀ l : List Nat, (∀ y ∈ l, 1 ≤ y) → l.length ≤ l.sum := by
  intro l
  induction l with
  | nil => intro _; simp
  | cons y rest ih =>
      intro h
      have h1 := h y (List.mem_cons_self y rest)
      have h2 := ih (fun z hz => h z (List.mem_cons_of_mem y hz))
      rw [List.length_cons, List.sum_cons]
      omega

theorem length_lt_sum_of_two :
    ∀ l : List Nat, (∀ y ∈ l, 1 ≤ y) → ∀ y ∈ l, 2 ≤ y → l.length < l.sum := by
  intro l
  induction l with
  | nil => intro _ y hy; cases hy
  | cons z rest ih =>
      intro hall y hy h2
      have hsum := length_le_sum_of_one_le rest
        (fun w hw => hall w (List.mem_cons_of_mem z hw))
      rcases List.mem_cons.mp hy with h | h
      · rw [List.length_cons, List.sum_cons, ← h]
        omega
      · have hz1 := hall z (List.mem_cons_self z rest)
        have hlt := ih (fun w hw => hall w (List.mem_cons_of_mem z hw)) y h h2
        rw [List.length_cons, List.sum_cons]
        omega

theorem countP_idx_eq_count (x : Nat) (a : Int) (hxa : (x : Int) = a) :
    ∀ conv : List DateConv,
      conv.countP (fun d => decide ((x : Int) = d.dateColumnIndex)) =
        (conv.map DateConv.dateColumnIndex).count a := by
  intro conv
  rw [List.count_eq_countP, List.countP_map]
  apply List.countP_congr
  intro d _
  constructor
  · intro h
    rw [decide_eq_true_eq] at h
    simp [Function.comp, ← h, ← hxa]
  · intro h
    simp only [Function.comp] at h
    rw [beq_iff_eq] at h
    rw [decide_eq_true_eq, hxa, h]

/-- Claim C1: for every non-empty resolved column list and every source row
width at least its length, the INSERT built by `load_csv_data_into_table`
names exactly the resolved columns in order, and its value list has exactly
`rowWidth` slots, the `k`-th carrying the placeholder `:k+1` either bare or
wrapped in a `TO_DATE` call. Date mappings key placeholder positions, so
their indices are pairwise distinct. -/
theorem C1_statement_columns_and_placeholders (staging : String)
    (cols : List String) (rowWidth : Nat) (conv : List DateConv)
    (hne : cols ≠ []) (hw : cols.length ≤ rowWidth)
    (hnd : (conv.map DateConv.dateColumnIndex).Nodup) :
    data_insertion_query staging cols rowWidth conv =
      "INSERT INTO " ++ staging ++ "(" ++ String.intercalate ", " cols ++
        ") VALUES(" ++ String.intercalate ", " (valuesToInsert rowWidth conv)
        ++ ")"
    ∧ (valuesToInsert rowWidth conv).length = rowWidth
    ∧ ∀ k, k < rowWidth →
        (valuesToInsert rowWidth conv)[k]? = some (bareSlot k) ∨
          ∃ fmt, (valuesToInsert rowWidth conv)[k]? = some (toDateSlot k fmt) := by
  refine ⟨?_, ?_, ?_⟩
  · rw [data_insertion_query, joinCols_eq]
  · rw [valuesToInsert_of_nodup rowWidth conv hnd]
    simp
  · intro k hk
    rw [valuesToInsert_of_nodup rowWidth conv hnd, List.getElem?_map,
      List.getElem?_range hk]
    cases hfind : conv.find? (fun e => decide ((k : Int) = e.dateColumnIndex)) with
    | none =>
        left
        simp [slotAt, hfind]
    | some d =>
        right
        exact ⟨d.dateColumnConversionFormat, by simp [slotAt, hfind]⟩

theorem C1_witness :
    (["A", "B"] : List String) ≠ [] ∧
      (["A", "B"] : List String).length ≤ 3 ∧
      ((([⟨1, "DD/MM/YYYY"⟩] : List DateConv)).map
        DateConv.dateColumnIndex).Nodup ∧
      (valuesToInsert 3 [⟨1, "DD/MM/YYYY"⟩]).length = 3 ∧
      data_insertion_query "S.T" ["A", "B"] 3 [⟨1, "DD/MM/YYYY"⟩] =
        "INSERT INTO S.T(A, B) VALUES(:1, TO_DATE(:2, \x27DD/MM/YYYY\x27), :3)" := by
  have h := C1_statement_columns_and_placeholders "S.T" ["A", "B"] 3
    [⟨1, "DD/MM/YYYY"⟩] (by decide) (by decide) (by decide)
  refine ⟨by decide, by decide, by decide, h.2.1, ?_⟩
  rw [h.1]
  rfl

/-- Claim C6: with distinct mapping indices (mappings key placeholder
positions), every position appearing as a mapping index is emitted as a
`TO_DATE` expression wrapping that position's placeholder with exactly the
caller-supplied format string, and every position not appearing in the
mappings is emitted as the bare positional placeholder. -/
theorem C6_to_date_wrapping (rowWidth : Nat) (conv : List DateConv)
    (hnd : (conv.map DateConv.dateColumnIndex).Nodup) :
    (∀ k, k < rowWidth → ∀ d, d ∈ conv → d.dateColumnIndex = (k : Int) →
        (valuesToInsert rowWidth conv)[k]? =
          some (toDateSlot k d.dateColumnConversionFormat))
    ∧ ∀ k, k < rowWidth → (∀ d, d ∈ conv → d.dateColumnIndex ≠ (k : Int)) →
        (valuesToInsert rowWidth conv)[k]? = some (bareSlot k) := by
  constructor
  · intro k hk d hd hdx
    rw [valuesToInsert_of_nodup rowWidth conv hnd, List.getElem?_map,
      List.getElem?_range hk]
    have hfind := find?_eq_some_of_nodup conv hnd d hd k hdx
    simp [slotAt, hfind]
  · intro k hk hnone
    rw [valuesToInsert_of_nodup rowWidth conv hnd, List.getElem?_map,
      List.getElem?_range hk]
    have hfind : conv.find? (fun e => decide ((k : Int) = e.dateColumnIndex)) =
        none := by
      rw [List.find?_eq_none]
      intro e he
      simp only [decide_eq_true_eq]
      intro hke
      exact hnone e he hke.symm
    simp [slotAt, hfind]

theorem C6_witness :
    (valuesToInsert 3 [⟨1, "MM/YYYY"⟩])[1]? = some (toDateSlot 1 "MM/YYYY") ∧
      (valuesToInsert 3 [⟨1, "MM/YYYY"⟩])[0]? = some (bareSlot 0) := by
  have h := C6_to_date_wrapping 3 [⟨1, "MM/YYYY"⟩] (by decide)
  exact ⟨h.1 1 (by decide) ⟨1, "MM/YYYY"⟩ (by decide) (by decide),
    h.2 0 (by decide) (by decide)⟩

/-- Claim C10: for every placeholder position the synthesizer emits one
value slot per date-mapping entry whose index equals that position (not at
most one); hence, for mappings respecting the data model's range invariant,
the statement has exactly `rowWidth` value slots precisely when the mapping
indices are pairwise distinct, and duplicated indices make it longer. -/
theorem C10_slots_per_mapping_entry (rowWidth : Nat) (conv : List DateConv)
    (hin : ∀ d ∈ conv, 0 ≤ d.dateColumnIndex ∧
      d.dateColumnIndex < (rowWidth : Int)) :
    (∀ x : Nat,
        (posSlots conv x).length =
          if conv.countP (fun d => decide ((x : Int) = d.dateColumnIndex)) = 0
          then 1
          else conv.countP (fun d => decide ((x : Int) = d.dateColumnIndex)))
    ∧ ((valuesToInsert rowWidth conv).length = rowWidth ↔
        (conv.map DateConv.dateColumnIndex).Nodup) := by
  refine ⟨length_posSlots conv, ?_, ?_⟩
  · intro hlen
    by_contra hnd
    rw [List.nodup_iff_count_le_one] at hnd
    push_neg at hnd
    obtain ⟨a, ha⟩ := hnd
    have ha2 : 2 ≤ (conv.map DateConv.dateColumnIndex).count a := ha
    have hamem : a ∈ conv.map DateConv.dateColumnIndex :=
      List.count_pos_iff.mp (by omega)
    obtain ⟨d, hd, hda⟩ := List.mem_map.mp hamem
    obtain ⟨h0, hlt⟩ := hin d hd
    rw [hda] at h0 hlt
    have hxa : ((a.toNat : Nat) : Int) = a := Int.toNat_of_nonneg h0
    have hxlt : a.toNat < rowWidth := by omega
    have hcount := countP_idx_eq_count a.toNat a hxa conv
    have hterm : 2 ≤ (posSlots conv a.toNat).length := by
      rw [length_posSlots]
      rw [hcount]
      have hne : (conv.map DateConv.dateColumnIndex).count a ≠ 0 := by omega
      rw [if_neg hne]
      exact ha2
    have hsum : (valuesToInsert rowWidth conv).length =
        ((List.range rowWidth).map (fun x => (posSlots conv x).length)).sum := by
      rw [valuesToInsert_eq_flatMap, length_flatMap_eq]
    have hall : ∀ y ∈ (List.range rowWidth).map
        (fun x => (posSlots conv x).length), 1 ≤ y := by
      intro y hy
      obtain ⟨x, _, hxy⟩ := List.mem_map.mp hy
      rw [← hxy]
      exact one_le_length_posSlots conv x
    have hmem2 : (posSlots conv a.toNat).length ∈
        (List.range rowWidth).map (fun x => (posSlots conv x).length) :=
      List.mem_map_of_mem _ (List.mem_range.mpr hxlt)
    have hlt2 := length_lt_sum_of_two _ hall _ hmem2 hterm
    rw [List.length_map, List.length_range] at hlt2
    rw [hsum] at hlen
    omega
  · intro hnd
    rw [valuesToInsert_of_nodup rowWidth conv hnd]
    simp

theorem C10_witness :
    (posSlots ([⟨0, "F"⟩, ⟨0, "G"⟩] : List DateConv) 0).length = 2 ∧
      ¬((valuesToInsert 2 ([⟨0, "F"⟩, ⟨0, "G"⟩] : List DateConv)).length = 2) := by
  have h := C10_slots_per_mapping_entry 2 ([⟨0, "F"⟩, ⟨0, "G"⟩] : List DateConv)
    (by decide)
  constructor
  · have h1 := h.1 0
    rw [h1]
    decide
  · intro hl
    have hnd := h.2.mp hl
    exact absurd hnd (by decide)

/-- Claim C3 counterexample: with row width 3 and a date-mapping index 5
(out of range), `load_csv_data_into_table` raises nothing at all — it
synthesizes the plain statement as if the mapping were absent, and the whole
pipeline completes without error.  No `StatementSynthesisError` exists in
the code. -/
theorem C3_counterexample :
    (load_csv_data_into_table true "S.T" (Option.some ["A"]) 3
        ([⟨5, "DD/MM/YYYY"⟩] : List DateConv) true).2 =
      Except.ok "INSERT INTO S.T(A) VALUES(:1, :2, :3)"
    ∧ valuesToInsert 3 ([⟨5, "DD/MM/YYYY"⟩] : List DateConv) =
        valuesToInsert 3 ([] : List DateConv)
    ∧ (run_pipeline ⟨true, true, true, true, Except.ok ["A", "B", "C"], true⟩
        "S.T" [] 3 ([⟨5, "DD/MM/YYYY"⟩] : List DateConv)).2 = Option.none := by
  refine ⟨rfl, rfl, rfl⟩

/-- Claim C3 (amended): a date-mapping entry whose index is negative or at
least the row width never causes an error — statement synthesis ignores it,
producing the same value list and the same statement as without it, and the
load call succeeds whenever the driver accepts the batch. -/
theorem C3_out_of_range_ignored (staging : String) (cols : List String)
    (rowWidth : Nat) (conv : List DateConv) :
    valuesToInsert rowWidth (conv.filter (inRange rowWidth)) =
      valuesToInsert rowWidth conv
    ∧ data_insertion_query staging cols rowWidth
        (conv.filter (inRange rowWidth)) =
      data_insertion_query staging cols rowWidth conv
    ∧ (load_csv_data_into_table true staging (Option.some cols) rowWidth conv
        true).2 =
      Except.ok (data_insertion_query staging cols rowWidth conv) := by
  have hv : valuesToInsert rowWidth (conv.filter (inRange rowWidth)) =
      valuesToInsert rowWidth conv := by
    rw [valuesToInsert_eq_flatMap, valuesToInsert_eq_flatMap]
    apply flatMap_congr_of_mem
    intro x hx
    have hxlt : x < rowWidth := List.mem_range.mp hx
    have hfil : (conv.filter (inRange rowWidth)).filter
        (fun d => decide ((x : Int) = d.dateColumnIndex)) =
        conv.filter (fun d => decide ((x : Int) = d.dateColumnIndex)) := by
      rw [List.filter_filter]
      apply List.filter_congr
      intro d _
      by_cases h : (x : Int) = d.dateColumnIndex
      · have h1 : inRange rowWidth d = true := by
          rw [inRange, decide_eq_true_eq]
          constructor
          · rw [← h]; exact Int.ofNat_nonneg x
          · rw [← h]; exact_mod_cast hxlt
        simp [h, h1]
      · simp [h]
    simp [posSlots, matchedSlots, hfil]
  refine ⟨hv, ?_, ?_⟩
  · rw [data_insertion_query, data_insertion_query, hv]
  · rfl

theorem normFold_enumFrom :
    ∀ (vs : List Scalar) (k : Nat) (acc : List Scalar),
      acc.length = k + vs.length →
      (vs.enumFrom k).foldl normLoopStep acc =
        acc.take k ++ List.zipWith
          (fun a v => if v = Scalar.float PyFloat.nan then Scalar.none else a)
          (acc.drop k) vs := by
  intro vs
  induction vs with
  | nil =>
      intro k acc hlen
      simp only [List.length_nil, Nat.add_zero] at hlen
      simp only [List.enumFrom, List.foldl_nil, List.zipWith_nil_right,
        List.append_nil]
      rw [List.take_of_length_le (by omega)]
  | cons v tl ih =>
      intro k acc hlen
      rw [List.enumFrom_cons, List.foldl_cons]
      have hk : k < acc.length := by
        rw [hlen, List.length_cons]
        omega
      by_cases hnan : v = Scalar.float PyFloat.nan
      · have hstep : normLoopStep acc (k, v) = acc.set k Scalar.none := by
          simp [normLoopStep, hnan]
        rw [hstep]
        have hlen2 : (acc.set k Scalar.none).length = (k + 1) + tl.length := by
          rw [List.length_set, hlen, List.length_cons]
          omega
        rw [ih (k + 1) _ hlen2]
        have hset := List.set_eq_take_cons_drop Scalar.none hk
        have hlentake : (acc.take k).length = k := by
          rw [List.length_take]
          omega
        have htake : (acc.set k Scalar.none).take (k + 1) =
            acc.take k ++ [Scalar.none] := by
          rw [hset, List.take_append_eq_append_take, hlentake]
          rw [List.take_of_length_le (by omega)]
          have h2 : k + 1 - k = 1 := by omega
          rw [h2]
          rfl
        have hdrop : (acc.set k Scalar.none).drop (k + 1) = acc.drop (k + 1) := by
          rw [hset, List.drop_append_eq_append_drop, hlentake]
          rw [List.drop_eq_nil_of_le (by omega)]
          have h2 : k + 1 - k = 1 := by omega
          rw [h2]
          rfl
        rw [htake, hdrop, List.drop_eq_getElem_cons hk, List.zipWith_cons_cons]
        simp [hnan]
      · have hstep : normLoopStep acc (k, v) = acc := by
          simp [normLoopStep, hnan]
        rw [hstep]
        have hlen2 : acc.length = (k + 1) + tl.length := by
          rw [hlen, List.length_cons]
          omega
        rw [ih (k + 1) acc hlen2]
        rw [List.drop_eq_getElem_cons hk]
        simp only [List.zipWith_cons_cons]
        rw [if_neg hnan]
        rw [List.take_succ, List.getElem?_eq_getElem hk, Option.toList_some,
          List.append_assoc, List.singleton_append]

theorem modified_dataTuple_eq_map (t : List Scalar) :
    modified_dataTuple t = t.map normValue := by
  rw [modified_dataTuple, List.enum_eq_enumFrom]
  rw [normFold_enumFrom t 0 t (by simp)]
  simp [List.zipWith_same, normValue]

/-- Claim C4: normalisation replaces exactly the float NaN cells of every
row with the null marker `None` and leaves every other value identical;
the result is the elementwise image of the input rows (a fresh row
sequence — the Python loop writes into a copy of each tuple, never into the
input tuples, which are immutable). -/
theorem C4_nan_normalisation (rows : List (List Scalar)) :
    modified_dataInsertionTuples rows = rows.map (fun r => r.map normValue)
    ∧ normValue (Scalar.float PyFloat.nan) = Scalar.none
    ∧ ∀ v : Scalar, v ≠ Scalar.float PyFloat.nan → normValue v = v := by
  refine ⟨?_, rfl, ?_⟩
  · rw [modified_dataInsertionTuples]
    apply List.map_congr_left
    intro r _
    exact modified_dataTuple_eq_map r
  · intro v hv
    rw [normValue, if_neg hv]

theorem C4_witness :
    modified_dataInsertionTuples
        [[Scalar.float PyFloat.nan, Scalar.int 1,
          Scalar.float (PyFloat.val 2), Scalar.str "x"]] =
      [[Scalar.none, Scalar.int 1, Scalar.float (PyFloat.val 2),
        Scalar.str "x"]]
    ∧ normValue (Scalar.int 7) = Scalar.int 7 := by
  have h := C4_nan_normalisation
    [[Scalar.float PyFloat.nan, Scalar.int 1,
      Scalar.float (PyFloat.val 2), Scalar.str "x"]]
  constructor
  · rw [h.1]
    rfl
  · exact h.2.2 (Scalar.int 7) (by decide)

theorem quoteStep_eq (acc : List String) (c : String) :
    quoteStep acc c = acc ++ [quoteIfWs c] := by
  by_cases h : containsSpace c = true
  · simp [quoteStep, quoteIfWs, h]
  · simp [quoteStep, quoteIfWs, h]

theorem quote_foldl :
    ∀ (l : List String) (acc : List String),
      l.foldl quoteStep acc = acc ++ l.map quoteIfWs := by
  intro l
  induction l with
  | nil => intro acc; simp
  | cons c rest ih =>
      intro acc
      rw [List.foldl_cons, quoteStep_eq, ih, List.map_cons,
        List.append_assoc, List.singleton_append]

theorem stagingTableColumnsModifiedv2_eq_map (cols : List String) :
    stagingTableColumnsModifiedv2 cols = cols.map quoteIfWs := by
  rw [stagingTableColumnsModifiedv2, quote_foldl, List.nil_append]

theorem processColumns_eq (cols opts : List String) :
    processColumns cols opts =
      ((cols.map pyStrip).filter (fun c => !(opts.contains c))).map quoteIfWs := by
  rw [processColumns, stagingTableColumnsModifiedv2_eq_map,
    stagingTableColumnsModifiedv1]

theorem containsSpace_quoted (t : String) :
    containsSpace ("\"" ++ t ++ "\"") = containsSpace t := by
  have h1 : ("\"" : String).data = ['\"'] := rfl
  have h2 : pyIsSpace '\"' = false := rfl
  simp [containsSpace, String.data_append, List.any_append, h1, h2]

/-- Claim C5 counterexample: with catalog column `X Y` and exclusion set
containing the literal string `"X Y"` (with double quotes), the resolver
keeps the column (its trimmed form `X Y` is not in the set), quotes it, and
returns exactly that exclusion-set member: an excluded name appears in the
result. -/
theorem C5_counterexample :
    processColumns ["X Y"] ["\"X Y\""] = ["\"X Y\""]
    ∧ "\"X Y\"" ∈ processColumns ["X Y"] ["\"X Y\""]
    ∧ "\"X Y\"" ∈ (["\"X Y\""] : List String) := by
  refine ⟨rfl, ?_, ?_⟩
  · rw [show processColumns ["X Y"] ["\"X Y\""] = ["\"X Y\""] from rfl]
    exact List.mem_singleton.mpr rfl
  · exact List.mem_singleton.mpr rfl

/-- Claim C5 (amended): the resolver trims each fetched name, drops every
name whose trimmed form is in the exclusion set, quotes a remaining name if
and only if it contains whitespace, and preserves catalog order; every
entry of the result is the quote-image of a trimmed name outside the
exclusion set, and an unquoted (whitespace-free) entry is never in the
exclusion set — though a quoted entry can coincide with an exclusion entry
that itself contains double quotes. -/
theorem C5_resolver_processing (cols opts : List String) :
    processColumns cols opts =
      ((cols.map pyStrip).filter (fun c => !(opts.contains c))).map quoteIfWs
    ∧ (∀ q ∈ processColumns cols opts, ∃ t, t ∈ cols.map pyStrip ∧
        opts.contains t = false ∧ q = quoteIfWs t)
    ∧ (∀ t : String, (containsSpace t = true → quoteIfWs t = "\"" ++ t ++ "\"")
        ∧ (containsSpace t = false → quoteIfWs t = t))
    ∧ ∀ q ∈ processColumns cols opts, containsSpace q = false →
        opts.contains q = false := by
  have hmain := processColumns_eq cols opts
  have horigin : ∀ q ∈ processColumns cols opts, ∃ t, t ∈ cols.map pyStrip ∧
      opts.contains t = false ∧ q = quoteIfWs t := by
    intro q hq
    rw [hmain] at hq
    obtain ⟨t, ht, htq⟩ := List.mem_map.mp hq
    obtain ⟨htmem, htfil⟩ := List.mem_filter.mp ht
    exact ⟨t, htmem, by simpa using htfil, htq.symm⟩
  refine ⟨hmain, horigin, ?_, ?_⟩
  · intro t
    constructor
    · intro h
      rw [quoteIfWs, if_pos h]
    · intro h
      rw [quoteIfWs, if_neg (by simp [h])]
  · intro q hq hnospace
    obtain ⟨t, htmem, htfil, htq⟩ := horigin q hq
    by_cases hts : containsSpace t = true
    · exfalso
      rw [htq, quoteIfWs, if_pos hts, containsSpace_quoted, hts] at hnospace
      exact Bool.noConfusion hnospace
    · have hts2 : containsSpace t = false := by
        cases hc : containsSpace t with
        | false => rfl
        | true => exact absurd hc hts
      rw [htq, quoteIfWs, if_neg (by simp [hts2])]
      exact htfil

theorem C5_witness :
    (processColumns ["  A  ", "B C", "DROP"] ["DROP"] =
      (((["  A  ", "B C", "DROP"] : List String).map pyStrip).filter
        (fun c => !((["DROP"] : List String).contains c))).map quoteIfWs)
    ∧ (["DROP"] : List String).contains "A" = false
    ∧ processColumns ["  A  ", "B C", "DROP"] ["DROP"] = ["A", "\"B C\""] := by
  have h := C5_resolver_processing ["  A  ", "B C", "DROP"] ["DROP"]
  exact ⟨h.1, h.2.2.2 "A" (by decide) (by decide), rfl⟩

theorem containsSpace_pyStrip_singleton (c : Char) :
    containsSpace (pyStrip (String.mk [c])) = false := by
  cases h : pyIsSpace c with
  | true => simp [pyStrip, containsSpace, h, List.dropWhile_cons]
  | false => simp [pyStrip, containsSpace, h, List.dropWhile_cons]

/-- Claim C9: for a single-column catalog whose one declared name is longer
than one character, `.values.squeeze().tolist()` collapses the 1×1 frame to
the bare string, so the resolver iterates the name's characters: the result
has one entry per character (each stripped) and is never the one-element
list containing the name. -/
theorem C9_singleton_squeeze (s : String) (hlen : 1 < s.length) :
    retrieve_staging_table_column_names [s] [] =
      s.data.map (fun c => pyStrip (String.mk [c]))
    ∧ (retrieve_staging_table_column_names [s] []).length = s.length
    ∧ retrieve_staging_table_column_names [s] [] ≠ [s] := by
  have hmain : retrieve_staging_table_column_names [s] [] =
      s.data.map (fun c => pyStrip (String.mk [c])) := by
    rw [retrieve_staging_table_column_names, squeeze_tolist, pyIterate,
      processColumns_eq]
    have hfil : ((s.data.map (fun c => String.mk [c])).map pyStrip).filter
        (fun c => !(([] : List String).contains c)) =
        (s.data.map (fun c => String.mk [c])).map pyStrip := by
      apply List.filter_eq_self.mpr
      intro a _
      rfl
    rw [hfil, List.map_map, List.map_map]
    apply List.map_congr_left
    intro c _
    show quoteIfWs (pyStrip (String.mk [c])) = pyStrip (String.mk [c])
    rw [quoteIfWs, if_neg (by simp [containsSpace_pyStrip_singleton c])]
  have hlength : (retrieve_staging_table_column_names [s] []).length = s.length := by
    rw [hmain, List.length_map]
    rfl
  refine ⟨hmain, hlength, ?_⟩
  intro hcon
  have h1 : (retrieve_staging_table_column_names [s] []).length = 1 := by
    rw [hcon]
    rfl
  rw [hlength] at h1
  omega

theorem C9_witness :
    1 < ("AB" : String).length ∧
      retrieve_staging_table_column_names ["AB"] [] = ["A", "B"] ∧
      retrieve_staging_table_column_names ["AB"] [] ≠ ["AB"] := by
  have h := C9_singleton_squeeze "AB" (by decide)
  refine ⟨by decide, ?_, h.2.2⟩
  rw [h.1]
  rfl

/-- Claim C7 (code evaluation): when `connect_to_oracledb` fails and returns
`None`, `connection.cursor()` raises an `AttributeError`, the catch-all
`except` swallows it, and the `finally` block itself then raises a
`NameError` on the never-bound local `cursor` — neither resource is marked
closed.  On the paths with a live connection, both resources are released
on success and on execution failure alike. -/
theorem C7_finally_unbound_cursor :
    (delete_existing_data_before_load false true).2 = Option.some PyExn.nameError
    ∧ (delete_existing_data_before_load false true).1.cursorClosed = false
    ∧ (delete_existing_data_before_load false true).1.connectionClosed = false
    ∧ (delete_existing_data_before_load true true).2 = Option.none
    ∧ (delete_existing_data_before_load true true).1.cursorClosed = true
    ∧ (delete_existing_data_before_load true true).1.connectionClosed = true
    ∧ (delete_existing_data_before_load true false).2 = Option.none
    ∧ (delete_existing_data_before_load true false).1.cursorClosed = true
    ∧ (delete_existing_data_before_load true false).1.connectionClosed = true := by
  exact ⟨rfl, rfl, rfl, rfl, rfl, rfl, rfl, rfl, rfl⟩

theorem s3Loop_no_match (env : LoadEnv) (source staging : String)
    (opts : List String) (conv : List DateConv) :
    ∀ objs : List (String × Nat),
      (∀ p ∈ objs, objMatches source p.1 = false) →
      s3Loop env source staging opts conv objs = ([], Option.none) := by
  intro objs
  induction objs with
  | nil => intro _; rfl
  | cons ow rest ih =>
      intro h
      obtain ⟨obj_name, w⟩ := ow
      have hhead : objMatches source obj_name = false :=
        h (obj_name, w) (List.mem_cons_self _ _)
      simp only [s3Loop, hhead, Bool.false_eq_true, if_false]
      exact ih (fun p hp => h p (List.mem_cons_of_mem _ hp))

/-- Claim C8: when the caller's source path ends in neither `.csv` nor
`.xlsx`, or matches no listed object key, the orchestrator runs no pipeline
step at all — the table is neither truncated nor inserted into — and the
call returns without reporting any error. -/
theorem C8_unmatched_source_noop (source staging : String)
    (opts : List String) (conv : List DateConv) (env : LoadEnv)
    (objs : List (String × Nat))
    (h : (pyEndsWith source ".csv" = false ∧ pyEndsWith source ".xlsx" = false)
      ∨ ∀ w, ¬((source, w) ∈ objs)) :
    read_from_s3_and_write_to_oracle source staging opts conv
      (Option.some objs) env = ([], Option.none) := by
  rw [read_from_s3_and_write_to_oracle]
  apply s3Loop_no_match
  intro p hp
  have hb : ∀ he : ¬(p.1 = source), (p.1 == source) = false := by
    intro he
    exact beq_eq_false_iff_ne.mpr he
  rcases h with ⟨h1, h2⟩ | h3
  · rw [objMatches]
    by_cases he : p.1 = source
    · rw [he, h1, h2]
      rfl
    · rw [hb he, Bool.and_false]
  · rw [objMatches]
    by_cases he : p.1 = source
    · exfalso
      apply h3 p.2
      have hpeq : p = (source, p.2) := by
        obtain ⟨a, b⟩ := p
        simp only at he
        rw [he]
      rw [← hpeq]
      exact hp
    · rw [hb he, Bool.and_false]

theorem C8_witness :
    (pyEndsWith "report.txt" ".csv" = false ∧
      pyEndsWith "report.txt" ".xlsx" = false) ∧
    read_from_s3_and_write_to_oracle "report.txt" "S.T" [] []
        (Option.some [("inputstream/cdw/a.csv", 2)])
        ⟨true, true, true, true, Except.ok ["A"], true⟩ = ([], Option.none) := by
  refine ⟨⟨rfl, rfl⟩, ?_⟩
  exact C8_unmatched_source_noop "report.txt" "S.T" [] []
    ⟨true, true, true, true, Except.ok ["A"], true⟩
    [("inputstream/cdw/a.csv", 2)] (Or.inl ⟨rfl, rfl⟩)

/-- Claim C2 counterexample: with a matching `.csv` object and a failing
catalog query, `retrieve_staging_table_column_names` swallows the exception
and returns `None` — nothing called SchemaResolutionError propagates — and
the orchestrator still attempts the next pipeline step, statement
synthesis, which is what aborts the run (with a `TypeError`). -/
theorem C2_counterexample :
    read_from_s3_and_write_to_oracle "inputstream/cdw/f.csv" "S.T" [] []
        (Option.some [("inputstream/cdw/f.csv", 3)])
        ⟨true, true, true, true, Except.error (), true⟩ =
      ([Step.truncate, Step.preCount, Step.resolveColumns, Step.synthesize],
        Option.some PyExn.typeError)
    ∧ Step.synthesize ∈ (read_from_s3_and_write_to_oracle "inputstream/cdw/f.csv"
        "S.T" [] [] (Option.some [("inputstream/cdw/f.csv", 3)])
        ⟨true, true, true, true, Except.error (), true⟩).1 := by
  refine ⟨rfl, ?_⟩
  decide

/-- Claim C2 (amended): a catalog-query failure does not raise — the
resolver catches it and returns `None`, so the orchestrator still attempts
statement synthesis, which aborts with a `TypeError` before the bulk insert
and the post-count; a catalog query returning zero rows yields an empty
column list and the load proceeds through synthesis and the bulk-insert
attempt. -/
theorem C2_catalog_failure_continues (env : LoadEnv) (staging : String)
    (opts : List String) (rowWidth : Nat) (conv : List DateConv)
    (hconn : env.connectOk = true) :
    (env.catalogRows = Except.error () →
      run_pipeline env staging opts rowWidth conv =
        ([Step.truncate, Step.preCount, Step.resolveColumns, Step.synthesize],
          Option.some PyExn.typeError))
    ∧ (env.catalogRows = Except.ok [] →
        Step.synthesize ∈ (run_pipeline env staging opts rowWidth conv).1 ∧
          Step.bulkInsert ∈ (run_pipeline env staging opts rowWidth conv).1) := by
  obtain ⟨co, bt, bpre, bpost, cat, ins⟩ := env
  replace hconn : co = true := hconn
  subst hconn
  constructor
  · intro hcat
    replace hcat : cat = Except.error () := hcat
    subst hcat
    cases bt <;> cases bpre <;> cases bpost <;> cases ins <;> rfl
  · intro hcat
    replace hcat : cat = Except.ok [] := hcat
    subst hcat
    cases ins
    · have hrun : run_pipeline ⟨true, bt, bpre, bpost, Except.ok [], false⟩
          staging opts rowWidth conv =
          ([Step.truncate, Step.preCount, Step.resolveColumns, Step.synthesize,
            Step.bulkInsert], Option.some PyExn.dbError) := by
        cases bt <;> cases bpre <;> cases bpost <;> rfl
      rw [hrun]
      exact ⟨by decide, by decide⟩
    · have hrun : run_pipeline ⟨true, bt, bpre, bpost, Except.ok [], true⟩
          staging opts rowWidth conv =
          ([Step.truncate, Step.preCount, Step.resolveColumns, Step.synthesize,
            Step.bulkInsert, Step.postCount], Option.none) := by
        cases bt <;> cases bpre <;> cases bpost <;> rfl
      rw [hrun]
      exact ⟨by decide, by decide⟩

theorem C2_witness :
    run_pipeline ⟨true, true, true, true, Except.error (), true⟩ "S.T" [] 4 [] =
      ([Step.truncate, Step.preCount, Step.resolveColumns, Step.synthesize],
        Option.some PyExn.typeError)
    ∧ Step.bulkInsert ∈
        (run_pipeline ⟨true, true, true, true, Except.ok [], true⟩
          "S.T" [] 4 []).1 := by
  exact ⟨(C2_catalog_failure_continues ⟨true, true, true, true,
      Except.error (), true⟩ "S.T" [] 4 [] rfl).1 rfl,
    ((C2_catalog_failure_continues ⟨true, true, true, true,
      Except.ok [], true⟩ "S.T" [] 4 [] rfl).2 rfl).2⟩
